import Mathlib

/-! # Voting backend (`src/backend/main.go`): session registry and vote ledger

A shallow embedding of the four request handlers of `main.go`
(`createSession`, `submitVote`, `getResults`, `generateNullifier`) as pure
functions on an explicit registry state, together with the properties the
specification states about them.

Modelling decisions.

* A handler is modelled from the point where the request has been decoded
  (after the method check and `json.NewDecoder(...).Decode`): its input is the
  decoded request value, its output is the HTTP response and the next state.
* Each handler runs atomically: a trace is a sequence of whole requests.
* A Go `map[string]T` is an association list with at most the first binding of
  a key visible; reading a missing key yields the zero value, writing replaces
  the visible binding or adds one.
* `sessions` holds pointers; a session is only ever reached through the
  registry, so the registry is modelled as a map from id to session value and
  a mutation through the pointer is a write back under the same key.
* Go's `int` counters are modelled as unbounded integers: a counter is only
  ever incremented together with an `append` to `Votes`, whose length is
  bounded by the address space, so the 64-bit increment cannot wrap.
-/

namespace VotingBackend

/-! ## Go maps with string keys -/

/-- A Go `map[string]T`, as an association list. -/
abbrev GoMap (α : Type) := List (String × α)

namespace GoMap

/-- The two-result read `v, ok := m[k]`. -/
def get? {α : Type} : GoMap α → String → Option α
  | [], _ => none
  | (k', v) :: rest, k => if k' = k then some v else get? rest k

/-- The single-result read `m[k]`: the zero value `z` when `k` is missing. -/
def getD {α : Type} (m : GoMap α) (k : String) (z : α) : α :=
  match get? m k with
  | some v => v
  | none => z

/-- The write `m[k] = v`. -/
def set {α : Type} : GoMap α → String → α → GoMap α
  | [], k, v => [(k, v)]
  | (k', v') :: rest, k, v =>
    if k' = k then (k, v) :: rest else (k', v') :: set rest k v

/-- The statement `m[k]++` on a `map[string]int`. -/
def incr (m : GoMap Int) (k : String) : GoMap Int :=
  set m k (getD m k 0 + 1)

end GoMap

/-! ## Data model (`main.go` lines 13-29) -/

/-- The struct `VoteData`: a single vote (`Vote` is 1 for yes, 0 for no). -/
structure VoteData where
  Nullifier : String
  Vote : Int
  Proof : String
  deriving DecidableEq, Repr

/-- The struct `VotingSession` without its mutex. -/
structure VotingSession where
  ProposalID : String
  Votes : List VoteData
  Results : GoMap Int
  deriving DecidableEq, Repr

/-- The process state: the global `sessions` map. -/
structure State where
  sessions : GoMap VotingSession
  deriving DecidableEq, Repr

/-- The state at process start: `sessions = make(map[string]*VotingSession)`. -/
def State.init : State := ⟨[]⟩

/-! ## Responses -/

/-- A value written by `json.NewEncoder(w).Encode`. -/
inductive JsonValue where
  | str (s : String)
  | int (n : Int)
  | intMap (m : GoMap Int)
  deriving DecidableEq, Repr

/-- What a handler writes to its `http.ResponseWriter`: either `http.Error`
with a message and a status code, or a JSON object (status 200). -/
inductive Response where
  | error (msg : String) (code : Nat)
  | json (fields : List (String × JsonValue))
  deriving DecidableEq, Repr

/-- The constant `http.StatusBadRequest`. -/
def StatusBadRequest : Nat := 400

/-- The constant `http.StatusNotFound`. -/
def StatusNotFound : Nat := 404

/-! ## Handlers -/

/-- The handler `createSession` (lines 47-62), for a decoded `proposalId`. -/
def createSession (s : State) (proposalId : String) : Response × State :=
  let session : VotingSession :=
    { ProposalID := proposalId
      Votes := []
      Results := [("yes", 0), ("no", 0)] }
  (Response.json [("message", JsonValue.str "Session created"),
                  ("proposalId", JsonValue.str proposalId)],
   { sessions := GoMap.set s.sessions proposalId session })

/-- The loop of lines 95-100: `true` when some recorded vote carries the
nullifier (the handler then returns early). -/
def nullifierUsed : List VoteData → String → Bool
  | [], _ => false
  | v :: rest, n => if v.Nullifier = n then true else nullifierUsed rest n

/-- The handler `submitVote` (lines 82-115), for a decoded request. -/
def submitVote (s : State) (proposalId : String) (vote : VoteData) : Response × State :=
  match GoMap.get? s.sessions proposalId with
  | none => (Response.error "Session not found" StatusNotFound, s)
  | some session =>
    if nullifierUsed session.Votes vote.Nullifier then
      (Response.error "Nullifier already used" StatusBadRequest, s)
    else
      let votes := session.Votes ++ [vote]
      let results :=
        if vote.Vote = 1 then GoMap.incr session.Results "yes"
        else GoMap.incr session.Results "no"
      (Response.json [("message", JsonValue.str "Vote recorded"),
                      ("status", JsonValue.str "success")],
       { sessions := GoMap.set s.sessions proposalId
           { session with Votes := votes, Results := results } })

/-- The handler `getResults` (lines 125-148), for the query parameter
`proposalId`. -/
def getResults (s : State) (proposalID : String) : Response × State :=
  if proposalID = "" then
    (Response.error "Missing proposalId" StatusBadRequest, s)
  else
    match GoMap.get? s.sessions proposalID with
    | none => (Response.error "Session not found" StatusNotFound, s)
    | some session =>
      (Response.json [("proposalId", JsonValue.str proposalID),
                      ("results", JsonValue.intMap session.Results),
                      ("totalVotes", JsonValue.int (session.Votes.length : Int))],
       s)

/-! ## The library calls of `generateNullifier`

`sha256.Sum256` and `hex.EncodeToString` belong to the Go standard library;
they are written out here (SHA-256 as in FIPS 180-4, bytes and words as
natural numbers reduced modulo `2 ^ 8` and `2 ^ 32`) so that the handler is
executable. -/

namespace Sha256

/-- Reduction of a natural number to a 32-bit word. -/
def w32 (x : Nat) : Nat := x % 2 ^ 32

/-- Rotation of a 32-bit word to the right by `n` bits. -/
def rotr (x n : Nat) : Nat := w32 ((x >>> n) ||| (x <<< (32 - n)))

/-- Bitwise complement of a 32-bit word. -/
def not32 (x : Nat) : Nat := 2 ^ 32 - 1 - w32 x

/-- The choice function `Ch`. -/
def ch (x y z : Nat) : Nat := (x &&& y) ^^^ (not32 x &&& z)

/-- The majority function `Maj`. -/
def maj (x y z : Nat) : Nat := (x &&& y) ^^^ (x &&& z) ^^^ (y &&& z)

/-- The function `Σ0`. -/
def bigSigma0 (x : Nat) : Nat := rotr x 2 ^^^ rotr x 13 ^^^ rotr x 22

/-- The function `Σ1`. -/
def bigSigma1 (x : Nat) : Nat := rotr x 6 ^^^ rotr x 11 ^^^ rotr x 25

/-- The function `σ0`. -/
def smallSigma0 (x : Nat) : Nat := rotr x 7 ^^^ rotr x 18 ^^^ (x >>> 3)

/-- The function `σ1`. -/
def smallSigma1 (x : Nat) : Nat := rotr x 17 ^^^ rotr x 19 ^^^ (x >>> 10)

/-- The 64 round constants. -/
def K : List Nat :=
  [0x428a2f98, 0x71374491, 0xb5c0fbcf, 0xe9b5dba5, 0x3956c25b, 0x59f111f1, 0x923f82a4, 0xab1c5ed5,
   0xd807aa98, 0x12835b01, 0x243185be, 0x550c7dc3, 0x72be5d74, 0x80deb1fe, 0x9bdc06a7, 0xc19bf174,
   0xe49b69c1, 0xefbe4786, 0x0fc19dc6, 0x240ca1cc, 0x2de92c6f, 0x4a7484aa, 0x5cb0a9dc, 0x76f988da,
   0x983e5152, 0xa831c66d, 0xb00327c8, 0xbf597fc7, 0xc6e00bf3, 0xd5a79147, 0x06ca6351, 0x14292967,
   0x27b70a85, 0x2e1b2138, 0x4d2c6dfc, 0x53380d13, 0x650a7354, 0x766a0abb, 0x81c2c92e, 0x92722c85,
   0xa2bfe8a1, 0xa81a664b, 0xc24b8b70, 0xc76c51a3, 0xd192e819, 0xd6990624, 0xf40e3585, 0x106aa070,
   0x19a4c116, 0x1e376c08, 0x2748774c, 0x34b0bcb5, 0x391c0cb3, 0x4ed8aa4a, 0x5b9cca4f, 0x682e6ff3,
   0x748f82ee, 0x78a5636f, 0x84c87814, 0x8cc70208, 0x90befffa, 0xa4506ceb, 0xbef9a3f7, 0xc67178f2]

/-- The initial hash value. -/
def H0 : List Nat :=
  [0x6a09e667, 0xbb67ae85, 0x3c6ef372, 0xa54ff53a, 0x510e527f, 0x9b05688c, 0x1f83d9ab, 0x5be0cd19]

/-- Message padding: a `0x80` byte, zero bytes up to 56 modulo 64, then the
bit length as a 64-bit big-endian integer. -/
def pad (msg : List Nat) : List Nat :=
  let bits := (msg.length * 8) % 2 ^ 64
  msg ++ [0x80] ++ List.replicate ((119 - msg.length % 64) % 64) 0
    ++ (List.range 8).map (fun i => (bits >>> (8 * (7 - i))) % 256)

/-- Big-endian 32-bit word of four bytes. -/
def beWord (b : List Nat) : Nat :=
  b.foldl (fun acc x => acc * 256 + x) 0

/-- The 16 message words of a 64-byte block. -/
def blockWords (block : List Nat) : List Nat :=
  (List.range 16).map (fun i => beWord ((block.drop (4 * i)).take 4))

/-- Extension of the message schedule by `n` further words. -/
def extend : Nat → List Nat → List Nat
  | 0, w => w
  | n + 1, w =>
    let t := w.length
    let x := w32 (smallSigma1 (w.getD (t - 2) 0) + w.getD (t - 7) 0
                  + smallSigma0 (w.getD (t - 15) 0) + w.getD (t - 16) 0)
    extend n (w ++ [x])

/-- One round on the working variables `a..h`, with `kw = K[t] + W[t]`. -/
def round (v : List Nat) (kw : Nat) : List Nat :=
  match v with
  | [a, b, c, d, e, f, g, h] =>
    let t1 := w32 (h + bigSigma1 e + ch e f g + kw)
    let t2 := w32 (bigSigma0 a + maj a b c)
    [w32 (t1 + t2), a, b, c, w32 (d + t1), e, f, g]
  | _ => v

/-- Compression of one 64-byte block into the hash state. -/
def compress (hs : List Nat) (block : List Nat) : List Nat :=
  let w := extend 48 (blockWords block)
  let v := (List.zipWith (fun k x => k + x) K w).foldl round hs
  List.zipWith (fun x y => w32 (x + y)) hs v

/-- Hash state after the blocks of an already padded message. -/
def blocks : Nat → List Nat → List Nat → List Nat
  | 0, hs, _ => hs
  | n + 1, hs, bytes => blocks n (compress hs (bytes.take 64)) (bytes.drop 64)

/-- The four bytes of a 32-bit word, big-endian. -/
def wordBytes (x : Nat) : List Nat :=
  [(x >>> 24) % 256, (x >>> 16) % 256, (x >>> 8) % 256, x % 256]

/-- The function `sha256.Sum256`: the digest of a byte string, as bytes. -/
def Sum256 (msg : List Nat) : List Nat :=
  let p := pad msg
  ((blocks (p.length / 64) H0 p).map wordBytes).flatten

end Sha256

/-- The digit table `hextable` of `encoding/hex`. -/
def hextable : List Char := "0123456789abcdef".toList

/-- The function `hex.EncodeToString`: two lowercase digits per byte. -/
def hexEncodeToString (bytes : List Nat) : String :=
  String.mk ((bytes.map (fun b => [hextable.getD (b / 16 % 16) '0', hextable.getD (b % 16) '0'])).flatten)

/-- The conversion `[]byte(s)`: the UTF-8 bytes of a string. -/
def stringBytes (s : String) : List Nat :=
  (s.toList.map (fun c => (String.utf8EncodeChar c).map UInt8.toNat)).flatten

/-- The handler `generateNullifier` (lines 167-174), for a decoded `voterId`. -/
def generateNullifier (s : State) (voterId : String) : Response × State :=
  let hash := Sha256.Sum256 (stringBytes voterId)
  let nullifier := hexEncodeToString hash
  (Response.json [("nullifier", JsonValue.str nullifier)], s)

/-! ## Traces of requests -/

/-- A decoded request to one of the four endpoints that touch the registry
or derive a nullifier. -/
inductive Request where
  | createSession (proposalId : String)
  | submitVote (proposalId : String) (vote : VoteData)
  | getResults (proposalId : String)
  | generateNullifier (voterId : String)
  deriving DecidableEq, Repr

/-- Dispatch of one request to its handler (the routes of `main`). -/
def step (s : State) : Request → Response × State
  | Request.createSession p => createSession s p
  | Request.submitVote p v => submitVote s p v
  | Request.getResults p => getResults s p
  | Request.generateNullifier n => generateNullifier s n

/-- The state after serving a list of requests one after another. -/
def run (s : State) : List Request → State
  | [] => s
  | r :: rest => run (step s r).2 rest

/-- A state is reachable when some finite sequence of requests leads to it
from the empty registry. -/
def Reachable (s : State) : Prop := ∃ reqs : List Request, run State.init reqs = s

/-- The tally counter `Results["yes"]` of a session. -/
def VotingSession.yes (session : VotingSession) : Int := GoMap.getD session.Results "yes" 0

/-- The tally counter `Results["no"]` of a session. -/
def VotingSession.no (session : VotingSession) : Int := GoMap.getD session.Results "no" 0

/-- Every session stored in the registry satisfies `P`. -/
def AllSessions (P : VotingSession → Prop) (s : State) : Prop :=
  ∀ e ∈ s.sessions, P e.2

/-- The session `createSession` stores under `proposalId`. -/
def freshSession (proposalId : String) : VotingSession :=
  { ProposalID := proposalId, Votes := [], Results := [("yes", 0), ("no", 0)] }

/-- The session `submitVote` writes back when it accepts `vote`. -/
def recordVote (session : VotingSession) (vote : VoteData) : VotingSession :=
  { ProposalID := session.ProposalID
    Votes := session.Votes ++ [vote]
    Results := if vote.Vote = 1 then GoMap.incr session.Results "yes"
               else GoMap.incr session.Results "no" }

/-- The scenario state of the examples: session "P1" with the votes "n1"
(yes) and "n2" (no), built by three requests from the empty registry. -/
def exampleRequests : List Request :=
  [Request.createSession "P1",
   Request.submitVote "P1" ⟨"n1", 1, "pf1"⟩,
   Request.submitVote "P1" ⟨"n2", 0, "pf2"⟩]

/-- The state after `exampleRequests`. -/
def exampleState : State := run State.init exampleRequests

/-- The session "P1" of `exampleState`. -/
def exampleSession : VotingSession :=
  { ProposalID := "P1"
    Votes := [⟨"n1", 1, "pf1"⟩, ⟨"n2", 0, "pf2"⟩]
    Results := [("yes", 1), ("no", 1)] }

/-- A registry whose only session has the empty string as its id and holds
one vote: `createSession` accepts the empty id, `submitVote` too. -/
def emptyIdState : State :=
  run State.init [Request.createSession "", Request.submitVote "" ⟨"n1", 1, "pf1"⟩]

/-- The session of `emptyIdState`. -/
def emptyIdSession : VotingSession :=
  { ProposalID := "", Votes := [⟨"n1", 1, "pf1"⟩], Results := [("yes", 1), ("no", 0)] }

/-- The response of `submitVote` when it records the vote (lines 111-115). -/
def voteRecorded : Response :=
  Response.json [("message", JsonValue.str "Vote recorded"), ("status", JsonValue.str "success")]

/-- The response of `submitVote` when the nullifier is already in the vote
list (line 97). -/
def duplicateNullifier : Response :=
  Response.error "Nullifier already used" StatusBadRequest

/-- The responses and the final state of `submitVote` calls served one after
another for the same proposal, one call per vote of the list. -/
def submitAll (s : State) (p : String) : List VoteData → List Response × State
  | [] => ([], s)
  | v :: rest =>
    let r := submitVote s p v
    let rs := submitAll r.2 p rest
    (r.1 :: rs.1, rs.2)

/-- Specification side of the de-duplication claim: of the votes submitted
after the votes `earlier`, those whose nullifier did not occur in any vote
submitted before them, in submission order. -/
def specFirstOccurrences (earlier : List VoteData) : List VoteData → List VoteData
  | [] => []
  | v :: rest =>
    if v.Nullifier ∈ earlier.map VoteData.Nullifier then
      specFirstOccurrences (earlier ++ [v]) rest
    else v :: specFirstOccurrences (earlier ++ [v]) rest

/-- Specification side of the de-duplication claim: the answer expected for
each vote submitted after the votes `earlier`: accepted when its nullifier
did not occur in any vote submitted before it, rejected as a duplicate
otherwise. -/
def specAnswers (earlier : List VoteData) : List VoteData → List Response
  | [] => []
  | v :: rest =>
    (if v.Nullifier ∈ earlier.map VoteData.Nullifier then duplicateNullifier
     else voteRecorded) :: specAnswers (earlier ++ [v]) rest

/-- The number of votes of a list whose `Vote` field is exactly 1. -/
def countYes (votes : List VoteData) : Nat := votes.countP (fun v => decide (v.Vote = 1))

/-- The number of votes of a list whose `Vote` field is not 1. -/
def countNo (votes : List VoteData) : Nat := votes.countP (fun v => decide (v.Vote ≠ 1))

/-- A sequence of submissions with repeated nullifiers. -/
def exampleVotes : List VoteData :=
  [⟨"n1", 1, "a"⟩, ⟨"n2", 0, "b"⟩, ⟨"n1", 0, "c"⟩, ⟨"n3", 2, "d"⟩, ⟨"n2", 1, "e"⟩]

/-! ## Lemmas on Go maps -/

theorem GoMap.get?_set_self {α : Type} (m : GoMap α) (k : String) (v : α) :
    GoMap.get? (GoMap.set m k v) k = some v := by
  induction m with
  | nil => simp [GoMap.set, GoMap.get?]
  | cons e rest ih =>
    obtain ⟨k', v'⟩ := e
    by_cases h : k' = k
    · simp [GoMap.set, GoMap.get?, h]
    · simp [GoMap.set, GoMap.get?, h, ih]

theorem GoMap.get?_set_ne {α : Type} (m : GoMap α) (k q : String) (v : α) (hq : q ≠ k) :
    GoMap.get? (GoMap.set m k v) q = GoMap.get? m q := by
  induction m with
  | nil =>
    have hk : ¬ k = q := fun h => hq h.symm
    simp [GoMap.set, GoMap.get?, hk]
  | cons e rest ih =>
    obtain ⟨k', v'⟩ := e
    by_cases h : k' = k
    · have hk : ¬ k = q := fun h => hq h.symm
      have hk' : ¬ k' = q := fun h' => hq (h'.symm.trans h)
      simp [GoMap.set, GoMap.get?, h, hk]
    · simp [GoMap.set, GoMap.get?, h, ih]

theorem GoMap.mem_set {α : Type} (m : GoMap α) (k : String) (v : α) (e : String × α)
    (he : e ∈ GoMap.set m k v) : e = (k, v) ∨ e ∈ m := by
  induction m with
  | nil => simpa [GoMap.set] using he
  | cons e' rest ih =>
    obtain ⟨k', v'⟩ := e'
    by_cases h : k' = k
    · simp only [GoMap.set, h, if_true, List.mem_cons] at he
      rcases he with he | he
      · exact Or.inl he
      · exact Or.inr (List.mem_cons_of_mem _ he)
    · simp only [GoMap.set, h, if_false, List.mem_cons] at he
      rcases he with he | he
      · exact Or.inr (by rw [he]; exact List.mem_cons_self _ _)
      · rcases ih he with h1 | h1
        · exact Or.inl h1
        · exact Or.inr (List.mem_cons_of_mem _ h1)

theorem GoMap.mem_of_get? {α : Type} (m : GoMap α) (k : String) (v : α)
    (h : GoMap.get? m k = some v) : (k, v) ∈ m := by
  induction m with
  | nil => simp [GoMap.get?] at h
  | cons e rest ih =>
    obtain ⟨k', v'⟩ := e
    by_cases hk : k' = k
    · simp [GoMap.get?, hk] at h
      simp [hk, h]
    · simp [GoMap.get?, hk] at h
      exact List.mem_cons_of_mem _ (ih h)

theorem GoMap.getD_incr_self (m : GoMap Int) (k : String) :
    GoMap.getD (GoMap.incr m k) k 0 = GoMap.getD m k 0 + 1 := by
  simp [GoMap.incr, GoMap.getD, GoMap.get?_set_self]

theorem GoMap.getD_incr_ne (m : GoMap Int) (k q : String) (hq : q ≠ k) :
    GoMap.getD (GoMap.incr m k) q 0 = GoMap.getD m q 0 := by
  simp [GoMap.incr, GoMap.getD, GoMap.get?_set_ne _ _ _ _ hq]

/-! ## Lemmas on the handlers -/

theorem nullifierUsed_iff (votes : List VoteData) (n : String) :
    nullifierUsed votes n = true ↔ ∃ u ∈ votes, u.Nullifier = n := by
  induction votes with
  | nil => simp [nullifierUsed]
  | cons v rest ih =>
    by_cases h : v.Nullifier = n
    · simp [nullifierUsed, h]
    · simp [nullifierUsed, h, ih]

theorem nullifierUsed_eq_false (votes : List VoteData) (n : String)
    (h : ∀ u ∈ votes, u.Nullifier ≠ n) : nullifierUsed votes n = false := by
  cases hb : nullifierUsed votes n with
  | false => rfl
  | true =>
    obtain ⟨u, hu, hn⟩ := (nullifierUsed_iff votes n).1 hb
    exact absurd hn (h u hu)

theorem yes_ne_no : ("yes" : String) ≠ "no" := by decide

theorem no_ne_yes : ("no" : String) ≠ "yes" := by decide

/-- What `submitVote` does on a session whose vote list does not hold the
nullifier: the session is written back with the vote appended and one
counter incremented. -/
theorem submitVote_accept (s : State) (p : String) (v : VoteData) (session : VotingSession)
    (hs : GoMap.get? s.sessions p = some session)
    (hn : nullifierUsed session.Votes v.Nullifier = false) :
    submitVote s p v =
      (Response.json [("message", JsonValue.str "Vote recorded"),
                      ("status", JsonValue.str "success")],
       { sessions := GoMap.set s.sessions p
           { ProposalID := session.ProposalID
             Votes := session.Votes ++ [v]
             Results := if v.Vote = 1 then GoMap.incr session.Results "yes"
                        else GoMap.incr session.Results "no" } }) := by
  simp [submitVote, hs, hn]

theorem submitVote_reject (s : State) (p : String) (v : VoteData) (session : VotingSession)
    (hs : GoMap.get? s.sessions p = some session)
    (hn : nullifierUsed session.Votes v.Nullifier = true) :
    submitVote s p v = (Response.error "Nullifier already used" StatusBadRequest, s) := by
  simp [submitVote, hs, hn]


theorem createSession_eq (s : State) (p : String) :
    createSession s p =
      (Response.json [("message", JsonValue.str "Session created"),
                      ("proposalId", JsonValue.str p)],
       { sessions := GoMap.set s.sessions p (freshSession p) }) := rfl

theorem submitVote_accept_eq (s : State) (p : String) (v : VoteData) (session : VotingSession)
    (hs : GoMap.get? s.sessions p = some session)
    (hn : nullifierUsed session.Votes v.Nullifier = false) :
    submitVote s p v =
      (Response.json [("message", JsonValue.str "Vote recorded"),
                      ("status", JsonValue.str "success")],
       { sessions := GoMap.set s.sessions p (recordVote session v) }) :=
  submitVote_accept s p v session hs hn

theorem exampleState_eq : exampleState = ⟨[("P1", exampleSession)]⟩ := by decide

theorem exampleState_reachable : Reachable exampleState := ⟨exampleRequests, rfl⟩

/-! ## Invariants of reachable states -/

/-- A property of sessions that holds of a fresh session and is kept when a
vote with an unused nullifier is recorded is kept by every request. -/
theorem step_allSessions (P : VotingSession → Prop)
    (hfresh : ∀ p, P (freshSession p))
    (hrec : ∀ session v, P session → nullifierUsed session.Votes v.Nullifier = false →
      P (recordVote session v))
    (s : State) (hs : AllSessions P s) (r : Request) : AllSessions P (step s r).2 := by
  cases r with
  | createSession p =>
    intro e he
    simp only [step, createSession_eq] at he
    rcases GoMap.mem_set _ _ _ _ he with h | h
    · rw [h]; exact hfresh p
    · exact hs e h
  | submitVote p v =>
    cases hg : GoMap.get? s.sessions p with
    | none => simpa [step, submitVote, hg] using hs
    | some session =>
      cases hn : nullifierUsed session.Votes v.Nullifier with
      | true => simpa [step, submitVote_reject s p v session hg hn] using hs
      | false =>
        intro e he
        simp only [step, submitVote_accept_eq s p v session hg hn] at he
        rcases GoMap.mem_set _ _ _ _ he with h | h
        · rw [h]
          exact hrec session v (hs _ (GoMap.mem_of_get? _ _ _ hg)) hn
        · exact hs e h
  | getResults p =>
    by_cases hp : p = ""
    · simpa [step, getResults, hp] using hs
    · cases hg : GoMap.get? s.sessions p with
      | none => simpa [step, getResults, hp, hg] using hs
      | some session => simpa [step, getResults, hp, hg] using hs
  | generateNullifier n => simpa [step, generateNullifier] using hs

theorem run_allSessions (P : VotingSession → Prop)
    (hfresh : ∀ p, P (freshSession p))
    (hrec : ∀ session v, P session → nullifierUsed session.Votes v.Nullifier = false →
      P (recordVote session v))
    (reqs : List Request) (s : State) (hs : AllSessions P s) :
    AllSessions P (run s reqs) := by
  induction reqs generalizing s with
  | nil => exact hs
  | cons r rest ih => exact ih _ (step_allSessions P hfresh hrec s hs r)

theorem reachable_allSessions (P : VotingSession → Prop)
    (hfresh : ∀ p, P (freshSession p))
    (hrec : ∀ session v, P session → nullifierUsed session.Votes v.Nullifier = false →
      P (recordVote session v))
    (s : State) (h : Reachable s) : AllSessions P s := by
  obtain ⟨reqs, rfl⟩ := h
  exact run_allSessions P hfresh hrec reqs State.init (fun e he => by simp [State.init] at he)

theorem freshSession_tally (p : String) :
    (freshSession p).yes + (freshSession p).no = ((freshSession p).Votes.length : Int) := by
  simp [freshSession, VotingSession.yes, VotingSession.no, GoMap.getD, GoMap.get?]

theorem recordVote_tally (session : VotingSession) (v : VoteData)
    (h : session.yes + session.no = (session.Votes.length : Int)) :
    (recordVote session v).yes + (recordVote session v).no
      = ((recordVote session v).Votes.length : Int) := by
  unfold VotingSession.yes VotingSession.no at *
  by_cases hv : v.Vote = 1
  · simp only [recordVote, hv, if_true, GoMap.getD_incr_self,
      GoMap.getD_incr_ne _ _ _ no_ne_yes, List.length_append, List.length_singleton]
    push_cast
    omega
  · simp only [recordVote, hv, if_false, GoMap.getD_incr_self,
      GoMap.getD_incr_ne _ _ _ yes_ne_no, List.length_append, List.length_singleton]
    push_cast
    omega

theorem recordVote_nodup (session : VotingSession) (v : VoteData)
    (h : (session.Votes.map VoteData.Nullifier).Nodup)
    (hn : nullifierUsed session.Votes v.Nullifier = false) :
    ((recordVote session v).Votes.map VoteData.Nullifier).Nodup := by
  have hnot : ∀ u ∈ session.Votes, u.Nullifier ≠ v.Nullifier := by
    intro u hu hEq
    have : nullifierUsed session.Votes v.Nullifier = true :=
      (nullifierUsed_iff _ _).2 ⟨u, hu, hEq⟩
    rw [hn] at this
    exact Bool.noConfusion this
  simp only [recordVote, List.map_append, List.map_cons, List.map_nil]
  refine List.Nodup.append h (List.nodup_singleton _) ?_
  intro n hn1 hn2
  obtain ⟨u, hu, rfl⟩ := List.mem_map.1 hn1
  exact hnot u hu (List.mem_singleton.1 hn2)

/-! ## The claims -/

/-- C1. Tally/vote-list consistency: in every state reachable from the empty
registry by a finite sequence of createSession, submitVote, getResults and
generateNullifier requests, every session of the registry satisfies
`Results["yes"] + Results["no"] == len(Votes)`. -/
theorem tally_matches_votes (s : State) (h : Reachable s) (p : String)
    (session : VotingSession) (hs : GoMap.get? s.sessions p = some session) :
    session.yes + session.no = (session.Votes.length : Int) :=
  reachable_allSessions (fun x => x.yes + x.no = (x.Votes.length : Int))
    freshSession_tally (fun x v hx _ => recordVote_tally x v hx) s h
    (p, session) (GoMap.mem_of_get? _ _ _ hs)

theorem tally_matches_votes_witness :
    Reachable exampleState ∧ GoMap.get? exampleState.sessions "P1" = some exampleSession ∧
      exampleSession.yes + exampleSession.no = (exampleSession.Votes.length : Int) :=
  ⟨exampleState_reachable, by decide,
   tally_matches_votes exampleState exampleState_reachable "P1" exampleSession (by decide)⟩

/-- C2. Nullifier uniqueness: in every state reachable from the empty
registry, no session holds two votes at distinct positions of its `Votes`
list with the same `Nullifier`. -/
theorem nullifiers_unique (s : State) (h : Reachable s) (p : String)
    (session : VotingSession) (hs : GoMap.get? s.sessions p = some session)
    (i j : Nat) (hi : i < session.Votes.length) (hj : j < session.Votes.length)
    (hij : i ≠ j) :
    (session.Votes.get ⟨i, hi⟩).Nullifier ≠ (session.Votes.get ⟨j, hj⟩).Nullifier := by
  have hnd : (session.Votes.map VoteData.Nullifier).Nodup :=
    reachable_allSessions (fun x => (x.Votes.map VoteData.Nullifier).Nodup)
      (fun _ => by simp [freshSession]) (fun x v hx hn => recordVote_nodup x v hx hn) s h
      (p, session) (GoMap.mem_of_get? _ _ _ hs)
  intro hEq
  have hi' : i < (session.Votes.map VoteData.Nullifier).length := by simpa using hi
  have hj' : j < (session.Votes.map VoteData.Nullifier).length := by simpa using hj
  have := (List.Nodup.get_inj_iff hnd (i := ⟨i, hi'⟩) (j := ⟨j, hj'⟩)).1 (by simpa using hEq)
  exact hij (Fin.mk.inj_iff.1 this)

theorem nullifiers_unique_witness :
    Reachable exampleState ∧ GoMap.get? exampleState.sessions "P1" = some exampleSession ∧
      (exampleSession.Votes.get ⟨0, by decide⟩).Nullifier
        ≠ (exampleSession.Votes.get ⟨1, by decide⟩).Nullifier :=
  ⟨exampleState_reachable, by decide,
   nullifiers_unique exampleState exampleState_reachable "P1" exampleSession (by decide)
     0 1 (by decide) (by decide) (by decide)⟩


/-- C3. Duplicate rejection is atomic: when the proposal has a session and
the submitted vote's nullifier equals that of a vote already in the session's
`Votes` list (whatever its choice and proof), `submitVote` answers
"Nullifier already used" (400) and the state after the call is the state
before it, so the session still holds the same vote list and tally. -/
theorem duplicate_rejected (s : State) (p : String) (session : VotingSession) (v : VoteData)
    (hs : GoMap.get? s.sessions p = some session)
    (hdup : ∃ u ∈ session.Votes, u.Nullifier = v.Nullifier) :
    submitVote s p v = (Response.error "Nullifier already used" 400, s) ∧
      GoMap.get? (submitVote s p v).2.sessions p = some session := by
  have h := submitVote_reject s p v session hs ((nullifierUsed_iff _ _).2 hdup)
  refine ⟨h, ?_⟩
  rw [h]
  exact hs

theorem duplicate_rejected_witness :
    GoMap.get? exampleState.sessions "P1" = some exampleSession ∧
      (∃ u ∈ exampleSession.Votes, u.Nullifier = (⟨"n1", 0, "other"⟩ : VoteData).Nullifier) ∧
      submitVote exampleState "P1" ⟨"n1", 0, "other"⟩
        = (Response.error "Nullifier already used" 400, exampleState) ∧
      GoMap.get? (submitVote exampleState "P1" ⟨"n1", 0, "other"⟩).2.sessions "P1"
        = some exampleSession :=
  ⟨by decide, ⟨⟨"n1", 1, "pf1"⟩, by decide, by decide⟩,
   duplicate_rejected exampleState "P1" exampleSession ⟨"n1", 0, "other"⟩ (by decide)
     ⟨⟨"n1", 1, "pf1"⟩, by decide, by decide⟩⟩

/-- C4. Acceptance postcondition: when the proposal has a session and the
submitted vote's nullifier does not occur in its `Votes` list, `submitVote`
answers "Vote recorded", the session's new `Votes` list is the old one with
the vote appended at the end, and exactly one counter grows by one (yes when
`Vote` is 1, no otherwise) while the other is unchanged. Consequently, on an
existing session, `submitVote` answers "Nullifier already used" if and only
if the nullifier is already in the list. -/
theorem vote_accepted (s : State) (p : String) (session : VotingSession) (v : VoteData)
    (hs : GoMap.get? s.sessions p = some session) :
    ((∀ u ∈ session.Votes, u.Nullifier ≠ v.Nullifier) →
      (submitVote s p v).1 = Response.json [("message", JsonValue.str "Vote recorded"),
                                            ("status", JsonValue.str "success")] ∧
      ∃ session', GoMap.get? (submitVote s p v).2.sessions p = some session' ∧
        session'.Votes = session.Votes ++ [v] ∧
        (v.Vote = 1 → session'.yes = session.yes + 1 ∧ session'.no = session.no) ∧
        (v.Vote ≠ 1 → session'.no = session.no + 1 ∧ session'.yes = session.yes)) ∧
    ((submitVote s p v).1 = Response.error "Nullifier already used" 400 ↔
      ∃ u ∈ session.Votes, u.Nullifier = v.Nullifier) := by
  constructor
  · intro hnew
    have hn := nullifierUsed_eq_false _ _ hnew
    rw [submitVote_accept_eq s p v session hs hn]
    refine ⟨rfl, recordVote session v, GoMap.get?_set_self _ _ _, rfl, ?_, ?_⟩
    · intro h1
      simp [recordVote, VotingSession.yes, VotingSession.no, h1, GoMap.getD_incr_self,
        GoMap.getD_incr_ne _ _ _ no_ne_yes]
    · intro h1
      simp [recordVote, VotingSession.yes, VotingSession.no, h1, GoMap.getD_incr_self,
        GoMap.getD_incr_ne _ _ _ yes_ne_no]
  · cases hn : nullifierUsed session.Votes v.Nullifier with
    | true =>
      rw [submitVote_reject s p v session hs hn]
      exact ⟨fun _ => (nullifierUsed_iff _ _).1 hn, fun _ => rfl⟩
    | false =>
      rw [submitVote_accept_eq s p v session hs hn]
      constructor
      · intro h
        exact Response.noConfusion h
      · intro h
        rw [(nullifierUsed_iff _ _).2 h] at hn
        exact Bool.noConfusion hn

theorem vote_accepted_witness :
    GoMap.get? exampleState.sessions "P1" = some exampleSession ∧
    (∀ u ∈ exampleSession.Votes, u.Nullifier ≠ (⟨"n3", 1, "pf3"⟩ : VoteData).Nullifier) ∧
    (submitVote exampleState "P1" ⟨"n3", 1, "pf3"⟩).1
      = Response.json [("message", JsonValue.str "Vote recorded"),
                       ("status", JsonValue.str "success")] :=
  ⟨by decide, by decide,
   ((vote_accepted exampleState "P1" exampleSession ⟨"n3", 1, "pf3"⟩ (by decide)).1
      (by decide)).1⟩

/-- C5. `createSession` always succeeds and overwrites: for every state and
every proposal id it answers "Session created" with the same id; afterwards
the id maps to a session with that `ProposalID`, an empty `Votes` list and
the tally yes 0, no 0; every other id maps to what it mapped to before; and
every vote submitted next under the id is accepted, whatever nullifiers the
overwritten session held. -/
theorem createSession_overwrites (s : State) (p : String) :
    (createSession s p).1 = Response.json [("message", JsonValue.str "Session created"),
                                           ("proposalId", JsonValue.str p)] ∧
    GoMap.get? (createSession s p).2.sessions p
      = some { ProposalID := p, Votes := [], Results := [("yes", 0), ("no", 0)] } ∧
    (∀ q, q ≠ p → GoMap.get? (createSession s p).2.sessions q = GoMap.get? s.sessions q) ∧
    (∀ v, (submitVote (createSession s p).2 p v).1
      = Response.json [("message", JsonValue.str "Vote recorded"),
                       ("status", JsonValue.str "success")]) := by
  have hget : GoMap.get? (createSession s p).2.sessions p = some (freshSession p) := by
    rw [createSession_eq]
    exact GoMap.get?_set_self _ _ _
  refine ⟨rfl, hget, ?_, ?_⟩
  · intro q hq
    rw [createSession_eq]
    exact GoMap.get?_set_ne _ _ _ _ hq
  · intro v
    rw [submitVote_accept_eq _ p v (freshSession p) hget rfl]

theorem createSession_overwrites_witness :
    GoMap.get? exampleState.sessions "P1" = some exampleSession ∧
    GoMap.get? (createSession exampleState "P1").2.sessions "P1"
      = some { ProposalID := "P1", Votes := [], Results := [("yes", 0), ("no", 0)] } ∧
    (submitVote (createSession exampleState "P1").2 "P1" ⟨"n1", 1, "pf1"⟩).1
      = Response.json [("message", JsonValue.str "Vote recorded"),
                       ("status", JsonValue.str "success")] :=
  ⟨by decide, (createSession_overwrites exampleState "P1").2.1,
   (createSession_overwrites exampleState "P1").2.2.2 ⟨"n1", 1, "pf1"⟩⟩


theorem emptyIdState_eq : emptyIdState = ⟨[("", emptyIdSession)]⟩ := by decide

/-- C6, as stated, fails: the session with the empty id exists (created and
voted on by ordinary requests), yet `getResults` answers "Missing proposalId"
(400) for it instead of its tally. -/
theorem getResults_reads_tally_counterexample :
    GoMap.get? emptyIdState.sessions "" = some emptyIdSession ∧
    getResults emptyIdState ""
      = (Response.error "Missing proposalId" 400, emptyIdState) ∧
    ¬ (∀ (s : State) (p : String) (session : VotingSession),
        GoMap.get? s.sessions p = some session →
        getResults s p
          = (Response.json [("proposalId", JsonValue.str p),
                            ("results", JsonValue.intMap session.Results),
                            ("totalVotes", JsonValue.int (session.Votes.length : Int))], s)) := by
  refine ⟨by decide, by decide, ?_⟩
  intro h
  have h1 := h emptyIdState "" emptyIdSession (by decide)
  have h2 : getResults emptyIdState ""
      = (Response.error "Missing proposalId" 400, emptyIdState) := by decide
  rw [h2] at h1
  exact Response.noConfusion (congrArg Prod.fst h1)

/-- C6, amended. `getResults` is a pure consistent read for a non-empty id:
for every state and every non-empty proposal id that has a session, it
returns that session's `Results` map (the yes and no counts) together with
`totalVotes` equal to the length of its `Votes` list, and the state after the
call equals the state before it. -/
theorem getResults_reads_tally (s : State) (p : String) (session : VotingSession)
    (hp : p ≠ "") (hs : GoMap.get? s.sessions p = some session) :
    getResults s p
      = (Response.json [("proposalId", JsonValue.str p),
                        ("results", JsonValue.intMap session.Results),
                        ("totalVotes", JsonValue.int (session.Votes.length : Int))], s) := by
  simp [getResults, hp, hs]

theorem getResults_reads_tally_witness :
    ("P1" : String) ≠ "" ∧ GoMap.get? exampleState.sessions "P1" = some exampleSession ∧
    getResults exampleState "P1"
      = (Response.json [("proposalId", JsonValue.str "P1"),
                        ("results", JsonValue.intMap [("yes", 1), ("no", 1)]),
                        ("totalVotes", JsonValue.int 2)], exampleState) :=
  ⟨by decide, by decide,
   getResults_reads_tally exampleState "P1" exampleSession (by decide) (by decide)⟩

/-- C7, as stated, fails: `createSession` accepts the empty id, and
`getResults` right after it answers "Missing proposalId" (400), not the
zero tally. -/
theorem empty_session_result_counterexample :
    (createSession State.init "").1
      = Response.json [("message", JsonValue.str "Session created"),
                       ("proposalId", JsonValue.str "")] ∧
    (getResults (createSession State.init "").2 "").1
      = Response.error "Missing proposalId" 400 ∧
    (getResults (createSession State.init "").2 "").1
      ≠ Response.json [("proposalId", JsonValue.str ""),
                       ("results", JsonValue.intMap [("yes", 0), ("no", 0)]),
                       ("totalVotes", JsonValue.int 0)] := by
  refine ⟨by decide, by decide, by decide⟩

/-- C7, amended. Empty-session result for a non-empty id: for every state
and every non-empty proposal id, `createSession` followed at once by
`getResults` returns yes 0, no 0, totalVotes 0. -/
theorem empty_session_result (s : State) (p : String) (hp : p ≠ "") :
    (getResults (createSession s p).2 p).1
      = Response.json [("proposalId", JsonValue.str p),
                       ("results", JsonValue.intMap [("yes", 0), ("no", 0)]),
                       ("totalVotes", JsonValue.int 0)] := by
  have hget : GoMap.get? (createSession s p).2.sessions p = some (freshSession p) := by
    rw [createSession_eq]
    exact GoMap.get?_set_self _ _ _
  simp [getResults, hp, hget, freshSession]

theorem empty_session_result_witness :
    ("P2" : String) ≠ "" ∧
    (getResults (createSession exampleState "P2").2 "P2").1
      = Response.json [("proposalId", JsonValue.str "P2"),
                       ("results", JsonValue.intMap [("yes", 0), ("no", 0)]),
                       ("totalVotes", JsonValue.int 0)] :=
  ⟨by decide, empty_session_result exampleState "P2" (by decide)⟩

/-- C8, as stated, fails: the empty registry is reachable and has no session
for the empty id, yet `getResults` answers it with "Missing proposalId"
(400), not "Session not found" (404). -/
theorem getResults_unknown_counterexample :
    Reachable State.init ∧ GoMap.get? State.init.sessions "" = none ∧
    getResults State.init "" = (Response.error "Missing proposalId" 400, State.init) ∧
    (getResults State.init "").1 ≠ Response.error "Session not found" 404 :=
  ⟨⟨[], rfl⟩, by decide, by decide, by decide⟩

/-- C8, amended. `getResults` on an unknown non-empty proposal: for every
state (so for every reachable one) and every non-empty proposal id with no
key in the registry, `getResults` answers "Session not found" (404) and
leaves the state unchanged. -/
theorem getResults_unknown (s : State) (p : String) (hp : p ≠ "")
    (hs : GoMap.get? s.sessions p = none) :
    getResults s p = (Response.error "Session not found" 404, s) := by
  simp [getResults, hp, hs, StatusNotFound]

theorem getResults_unknown_witness :
    ("P2" : String) ≠ "" ∧ GoMap.get? exampleState.sessions "P2" = none ∧
    getResults exampleState "P2" = (Response.error "Session not found" 404, exampleState) :=
  ⟨by decide, by decide, getResults_unknown exampleState "P2" (by decide) (by decide)⟩

/-- C9. `submitVote` on an unknown proposal: for every state, every proposal
id with no session in the registry and every vote, `submitVote` answers
"Session not found" (404) and the state after the call is the state before
it; in particular the id still has no session. -/
theorem submitVote_unknown (s : State) (p : String) (v : VoteData)
    (hs : GoMap.get? s.sessions p = none) :
    submitVote s p v = (Response.error "Session not found" 404, s) ∧
      GoMap.get? (submitVote s p v).2.sessions p = none := by
  have h : submitVote s p v = (Response.error "Session not found" 404, s) := by
    simp [submitVote, hs, StatusNotFound]
  refine ⟨h, ?_⟩
  rw [h]
  exact hs

theorem submitVote_unknown_witness :
    GoMap.get? exampleState.sessions "P2" = none ∧
    submitVote exampleState "P2" ⟨"n1", 1, "pf1"⟩
      = (Response.error "Session not found" 404, exampleState) ∧
    GoMap.get? (submitVote exampleState "P2" ⟨"n1", 1, "pf1"⟩).2.sessions "P2" = none :=
  ⟨by decide, submitVote_unknown exampleState "P2" ⟨"n1", 1, "pf1"⟩ (by decide)⟩

/-- C10. Concrete scenario, from any starting state and with any proof
strings: createSession("P1"); submitVote of nullifier "n1", choice yes, is
accepted; submitVote of nullifier "n2", choice no, is accepted; submitVote of
nullifier "n1", choice yes, is rejected with "Nullifier already used"; then
getResults("P1") returns yes 1, no 1, totalVotes 2. -/
theorem scenario_P1 (s : State) (pr1 pr2 pr3 : String) :
    let recorded := Response.json [("message", JsonValue.str "Vote recorded"),
                                   ("status", JsonValue.str "success")]
    let s1 := (createSession s "P1").2
    let r2 := submitVote s1 "P1" ⟨"n1", 1, pr1⟩
    let r3 := submitVote r2.2 "P1" ⟨"n2", 0, pr2⟩
    let r4 := submitVote r3.2 "P1" ⟨"n1", 1, pr3⟩
    r2.1 = recorded ∧ r3.1 = recorded ∧
      r4.1 = Response.error "Nullifier already used" 400 ∧
      (getResults r4.2 "P1").1
        = Response.json [("proposalId", JsonValue.str "P1"),
                         ("results", JsonValue.intMap [("yes", 1), ("no", 1)]),
                         ("totalVotes", JsonValue.int 2)] := by
  intro recorded s1 r2 r3 r4
  have h1 : GoMap.get? s1.sessions "P1" = some (freshSession "P1") :=
    GoMap.get?_set_self _ _ _
  have e2 : r2 = (recorded, State.mk (GoMap.set s1.sessions "P1"
      (recordVote (freshSession "P1") ⟨"n1", 1, pr1⟩))) :=
    submitVote_accept_eq s1 "P1" _ _ h1 rfl
  have h2 : GoMap.get? r2.2.sessions "P1"
      = some (recordVote (freshSession "P1") ⟨"n1", 1, pr1⟩) := by
    rw [e2]
    exact GoMap.get?_set_self _ _ _
  have e3 : r3 = (recorded, State.mk (GoMap.set r2.2.sessions "P1"
      (recordVote (recordVote (freshSession "P1") ⟨"n1", 1, pr1⟩) ⟨"n2", 0, pr2⟩))) :=
    submitVote_accept_eq r2.2 "P1" _ _ h2 (by simp [recordVote, freshSession, nullifierUsed])
  have h3 : GoMap.get? r3.2.sessions "P1"
      = some (recordVote (recordVote (freshSession "P1") ⟨"n1", 1, pr1⟩) ⟨"n2", 0, pr2⟩) := by
    rw [e3]
    exact GoMap.get?_set_self _ _ _
  have e4 : r4 = (Response.error "Nullifier already used" 400, r3.2) :=
    submitVote_reject r3.2 "P1" _ _ h3 (by simp [recordVote, freshSession, nullifierUsed])
  refine ⟨by rw [e2], by rw [e3], by rw [e4], ?_⟩
  rw [e4]
  have hp : ("P1" : String) ≠ "" := by decide
  simp only [getResults, hp, if_false, h3]
  rfl


/-! ## Sequences of submissions -/

theorem nullifierUsed_eq_true_iff_mem (votes : List VoteData) (n : String) :
    nullifierUsed votes n = true ↔ n ∈ votes.map VoteData.Nullifier := by
  rw [nullifierUsed_iff, List.mem_map]

theorem nullifierUsed_eq_false_iff_not_mem (votes : List VoteData) (n : String) :
    nullifierUsed votes n = false ↔ n ∉ votes.map VoteData.Nullifier := by
  rw [← nullifierUsed_eq_true_iff_mem]
  cases nullifierUsed votes n <;> simp

/-- Refinement of the specification side by `submitAll`: when the session
holds votes with exactly the nullifiers submitted so far, serving further
votes gives the expected answers and appends the first occurrences. -/
theorem submitAll_refines (p : String) (rest : List VoteData) :
    ∀ (s : State) (session : VotingSession) (earlier : List VoteData),
      GoMap.get? s.sessions p = some session →
      (∀ n, n ∈ session.Votes.map VoteData.Nullifier ↔ n ∈ earlier.map VoteData.Nullifier) →
      (submitAll s p rest).1 = specAnswers earlier rest ∧
      ∃ session', GoMap.get? (submitAll s p rest).2.sessions p = some session' ∧
        session'.Votes = session.Votes ++ specFirstOccurrences earlier rest ∧
        session'.ProposalID = session.ProposalID := by
  induction rest with
  | nil =>
    intro s session earlier hs _
    exact ⟨rfl, session, hs, by simp [specFirstOccurrences], rfl⟩
  | cons v rest ih =>
    intro s session earlier hs hsame
    cases hn : nullifierUsed session.Votes v.Nullifier with
    | true =>
      have hmem : v.Nullifier ∈ earlier.map VoteData.Nullifier :=
        (hsame _).1 ((nullifierUsed_eq_true_iff_mem _ _).1 hn)
      have hstep := submitVote_reject s p v session hs hn
      have hsame' : ∀ n, n ∈ session.Votes.map VoteData.Nullifier ↔
          n ∈ (earlier ++ [v]).map VoteData.Nullifier := by
        intro n
        rw [hsame n]
        simp only [List.map_append, List.map_cons, List.map_nil, List.mem_append,
          List.mem_singleton]
        constructor
        · exact Or.inl
        · rintro (h | h)
          · exact h
          · rw [h]; exact hmem
      obtain ⟨hans, session', hget, hvotes, hid⟩ := ih s session (earlier ++ [v]) hs hsame'
      simp only [submitAll, hstep, specAnswers, specFirstOccurrences, hmem, if_true]
      exact ⟨by rw [hans]; rfl, session', hget, hvotes, hid⟩
    | false =>
      have hmem : v.Nullifier ∉ earlier.map VoteData.Nullifier := fun h =>
        (nullifierUsed_eq_false_iff_not_mem _ _).1 hn ((hsame _).2 h)
      have hstep := submitVote_accept_eq s p v session hs hn
      have hs' : GoMap.get? (State.mk (GoMap.set s.sessions p (recordVote session v))).sessions p
          = some (recordVote session v) := GoMap.get?_set_self _ _ _
      have hsame' : ∀ n, n ∈ (recordVote session v).Votes.map VoteData.Nullifier ↔
          n ∈ (earlier ++ [v]).map VoteData.Nullifier := by
        intro n
        simp only [recordVote, List.map_append, List.mem_append, hsame n]
      obtain ⟨hans, session', hget, hvotes, hid⟩ :=
        ih _ (recordVote session v) (earlier ++ [v]) hs' hsame'
      simp only [submitAll, hstep, specAnswers, specFirstOccurrences, hmem, if_false]
      refine ⟨by rw [hans]; rfl, session', hget, ?_, hid⟩
      rw [hvotes]
      simp [recordVote]

theorem specFirstOccurrences_of_nodup (rest : List VoteData) :
    ∀ earlier : List VoteData, ((earlier ++ rest).map VoteData.Nullifier).Nodup →
      specFirstOccurrences earlier rest = rest ∧
      specAnswers earlier rest = rest.map (fun _ => voteRecorded) := by
  induction rest with
  | nil => intro earlier _; exact ⟨rfl, rfl⟩
  | cons v rest ih =>
    intro earlier hnd
    have hnd' : (((earlier ++ [v]) ++ rest).map VoteData.Nullifier).Nodup := by
      simpa using hnd
    have hmem : v.Nullifier ∉ earlier.map VoteData.Nullifier := by
      intro h
      simp only [List.map_append, List.map_cons] at hnd
      exact (List.nodup_append.1 hnd).2.2 h (List.mem_cons_self _ _)
    obtain ⟨h1, h2⟩ := ih (earlier ++ [v]) hnd'
    simp [specFirstOccurrences, specAnswers, hmem, h1, h2]


/-- C11, as stated, fails for a session created under the empty id: the one
submitted vote is recorded, but `getResults` answers "Missing proposalId"
(400) and so reports no `totalVotes` at all. -/
theorem no_lost_updates_counterexample :
    (submitAll (createSession State.init "").2 "" [⟨"n1", 1, "pf1"⟩]).1 = [voteRecorded] ∧
    (getResults (submitAll (createSession State.init "").2 "" [⟨"n1", 1, "pf1"⟩]).2 "").1
      = Response.error "Missing proposalId" 400 ∧
    ∀ results : GoMap Int,
      (getResults (submitAll (createSession State.init "").2 "" [⟨"n1", 1, "pf1"⟩]).2 "").1
        ≠ Response.json [("proposalId", JsonValue.str ""),
                         ("results", JsonValue.intMap results),
                         ("totalVotes", JsonValue.int 1)] := by
  have h : (getResults (submitAll (createSession State.init "").2 "" [⟨"n1", 1, "pf1"⟩]).2 "").1
      = Response.error "Missing proposalId" 400 := by decide
  refine ⟨by decide, h, ?_⟩
  intro results hEq
  rw [h] at hEq
  exact Response.noConfusion hEq

/-- C11, amended. No lost updates: for every list of N votes with pairwise
distinct nullifiers and every permutation `order` of it, the N `submitVote`
calls served in that order against a freshly created session all answer
"Vote recorded", and afterwards the session holds exactly the N votes in
the order served; when the proposal id is non-empty, `getResults` reports
`totalVotes == N`. -/
theorem no_lost_updates (s : State) (p : String) (votes order : List VoteData)
    (hnd : (votes.map VoteData.Nullifier).Nodup) (hperm : order.Perm votes) :
    (submitAll (createSession s p).2 p order).1.length = votes.length ∧
    (∀ resp ∈ (submitAll (createSession s p).2 p order).1, resp = voteRecorded) ∧
    ∃ session, GoMap.get? (submitAll (createSession s p).2 p order).2.sessions p = some session ∧
      session.Votes = order ∧
      (p ≠ "" → (getResults (submitAll (createSession s p).2 p order).2 p).1
        = Response.json [("proposalId", JsonValue.str p),
                         ("results", JsonValue.intMap session.Results),
                         ("totalVotes", JsonValue.int (votes.length : Int))]) := by
  have hget : GoMap.get? (createSession s p).2.sessions p = some (freshSession p) := by
    rw [createSession_eq]
    exact GoMap.get?_set_self _ _ _
  have hnd' : (([] ++ order).map VoteData.Nullifier).Nodup := by
    rw [List.nil_append]
    exact ((hperm.map VoteData.Nullifier).nodup_iff).2 hnd
  obtain ⟨hfirst, hanswers⟩ := specFirstOccurrences_of_nodup order [] hnd'
  obtain ⟨hans, session, hsess, hvotes, _⟩ :=
    submitAll_refines p order (createSession s p).2 (freshSession p) [] hget (fun _ => Iff.rfl)
  rw [hanswers] at hans
  rw [hfirst] at hvotes
  have hvotes' : session.Votes = order := by simpa [freshSession] using hvotes
  refine ⟨?_, ?_, session, hsess, hvotes', ?_⟩
  · rw [hans, List.length_map]
    exact hperm.length_eq
  · intro resp hresp
    rw [hans] at hresp
    obtain ⟨_, _, h⟩ := List.mem_map.1 hresp
    exact h.symm
  · intro hp
    simp [getResults, hp, hsess, hvotes', hperm.length_eq]

theorem no_lost_updates_witness :
    (([⟨"n1", 1, "a"⟩, ⟨"n2", 0, "b"⟩, ⟨"n3", 1, "c"⟩] : List VoteData).map
        VoteData.Nullifier).Nodup ∧
    ([⟨"n2", 0, "b"⟩, ⟨"n3", 1, "c"⟩, ⟨"n1", 1, "a"⟩] : List VoteData).Perm
        [⟨"n1", 1, "a"⟩, ⟨"n2", 0, "b"⟩, ⟨"n3", 1, "c"⟩] ∧
    (submitAll (createSession exampleState "P1").2 "P1"
        [⟨"n2", 0, "b"⟩, ⟨"n3", 1, "c"⟩, ⟨"n1", 1, "a"⟩]).1
      = [voteRecorded, voteRecorded, voteRecorded] ∧
    (getResults (submitAll (createSession exampleState "P1").2 "P1"
        [⟨"n2", 0, "b"⟩, ⟨"n3", 1, "c"⟩, ⟨"n1", 1, "a"⟩]).2 "P1").1
      = Response.json [("proposalId", JsonValue.str "P1"),
                       ("results", JsonValue.intMap [("yes", 2), ("no", 1)]),
                       ("totalVotes", JsonValue.int 3)] ∧
    (submitAll (createSession exampleState "P1").2 "P1"
        [⟨"n2", 0, "b"⟩, ⟨"n3", 1, "c"⟩, ⟨"n1", 1, "a"⟩]).1.length = 3 :=
  ⟨by decide, by decide, by decide, by decide,
   (no_lost_updates exampleState "P1"
      [⟨"n1", 1, "a"⟩, ⟨"n2", 0, "b"⟩, ⟨"n3", 1, "c"⟩]
      [⟨"n2", 0, "b"⟩, ⟨"n3", 1, "c"⟩, ⟨"n1", 1, "a"⟩]
      (by decide) (by decide)).1⟩

/-- C12. `generateNullifier` is deterministic and state-independent: for
every voter id and every two registry states it answers with the same
nullifier string (the hex encoding of the SHA-256 digest of the id's bytes),
it always answers with a JSON object and never with an error, and it leaves
the state it ran in unchanged. -/
theorem generateNullifier_deterministic (voterId : String) (s1 s2 : State) :
    (generateNullifier s1 voterId).1 = (generateNullifier s2 voterId).1 ∧
    (generateNullifier s1 voterId).1
      = Response.json [("nullifier",
          JsonValue.str (hexEncodeToString (Sha256.Sum256 (stringBytes voterId))))] ∧
    (generateNullifier s1 voterId).2 = s1 ∧ (generateNullifier s2 voterId).2 = s2 :=
  ⟨rfl, rfl, rfl, rfl⟩

/-- C13. Vote list equals first-occurrence de-duplication in submission
order: for every finite sequence of votes submitted one after another to a
freshly created session, the answers are "Vote recorded" exactly for the
votes whose nullifier did not occur in any earlier submitted vote and
"Nullifier already used" for all others, and the session's final `Votes` list
is exactly the subsequence of those first occurrences, in submission order. -/
theorem votes_are_first_occurrences (s : State) (p : String) (votes : List VoteData) :
    (submitAll (createSession s p).2 p votes).1 = specAnswers [] votes ∧
    ∃ session, GoMap.get? (submitAll (createSession s p).2 p votes).2.sessions p = some session ∧
      session.Votes = specFirstOccurrences [] votes := by
  have hget : GoMap.get? (createSession s p).2.sessions p = some (freshSession p) := by
    rw [createSession_eq]
    exact GoMap.get?_set_self _ _ _
  obtain ⟨hans, session, hsess, hvotes, _⟩ :=
    submitAll_refines p votes (createSession s p).2 (freshSession p) [] hget (fun _ => Iff.rfl)
  exact ⟨hans, session, hsess, by simpa [freshSession] using hvotes⟩

theorem votes_are_first_occurrences_witness :
    specFirstOccurrences [] exampleVotes = [⟨"n1", 1, "a"⟩, ⟨"n2", 0, "b"⟩, ⟨"n3", 2, "d"⟩] ∧
    specAnswers [] exampleVotes
      = [voteRecorded, voteRecorded, duplicateNullifier, voteRecorded, duplicateNullifier] ∧
    (submitAll (createSession exampleState "P1").2 "P1" exampleVotes).1
      = specAnswers [] exampleVotes :=
  ⟨by decide, by decide, (votes_are_first_occurrences exampleState "P1" exampleVotes).1⟩


/-! ## Per-choice counts and the frame of `submitVote` -/

theorem recordVote_counts (session : VotingSession) (v : VoteData)
    (h : session.yes = (countYes session.Votes : Int) ∧
      session.no = (countNo session.Votes : Int)) :
    (recordVote session v).yes = (countYes (recordVote session v).Votes : Int) ∧
      (recordVote session v).no = (countNo (recordVote session v).Votes : Int) := by
  unfold VotingSession.yes VotingSession.no at *
  obtain ⟨hy, hn⟩ := h
  by_cases hv : v.Vote = 1
  · simp only [recordVote, hv, if_true, GoMap.getD_incr_self,
      GoMap.getD_incr_ne _ _ _ no_ne_yes, countYes, countNo, List.countP_append, hy, hn]
    simp [List.countP_cons, hv]
  · simp only [recordVote, hv, if_false, GoMap.getD_incr_self,
      GoMap.getD_incr_ne _ _ _ yes_ne_no, countYes, countNo, List.countP_append, hy, hn]
    simp [List.countP_cons, hv]

theorem freshSession_counts (p : String) :
    (freshSession p).yes = (countYes (freshSession p).Votes : Int) ∧
      (freshSession p).no = (countNo (freshSession p).Votes : Int) := by
  simp [freshSession, VotingSession.yes, VotingSession.no, GoMap.getD, GoMap.get?,
    countYes, countNo]

theorem GoMap.keys_set_of_get? {α : Type} (m : GoMap α) (k : String) (v x : α)
    (h : GoMap.get? m k = some x) :
    (GoMap.set m k v).map Prod.fst = m.map Prod.fst := by
  induction m with
  | nil => simp [GoMap.get?] at h
  | cons e rest ih =>
    obtain ⟨k', v'⟩ := e
    by_cases hk : k' = k
    · simp [GoMap.set, hk]
    · simp only [GoMap.get?, hk, if_false] at h
      simp [GoMap.set, hk, ih h]

/-- C14. Per-choice tally invariant: in every reachable state and every
session, `Results["yes"]` is the number of votes of the `Votes` list whose
`Vote` field is exactly 1 and `Results["no"]` is the number of votes whose
`Vote` field is any other integer; and in any state a vote with an unused
nullifier and a `Vote` value other than 1 (for example 2 or -1, outside
0 and 1) is accepted and counted as a "no". -/
theorem per_choice_tally :
    (∀ (s : State), Reachable s → ∀ (p : String) (session : VotingSession),
      GoMap.get? s.sessions p = some session →
      session.yes = (countYes session.Votes : Int) ∧
        session.no = (countNo session.Votes : Int)) ∧
    (∀ (s : State) (p : String) (session : VotingSession) (v : VoteData),
      GoMap.get? s.sessions p = some session →
      (∀ u ∈ session.Votes, u.Nullifier ≠ v.Nullifier) → v.Vote ≠ 1 →
      (submitVote s p v).1 = voteRecorded ∧
      ∃ session', GoMap.get? (submitVote s p v).2.sessions p = some session' ∧
        session'.Votes = session.Votes ++ [v] ∧
        session'.no = session.no + 1 ∧ session'.yes = session.yes) := by
  constructor
  · intro s h p session hs
    exact reachable_allSessions
      (fun x => x.yes = (countYes x.Votes : Int) ∧ x.no = (countNo x.Votes : Int))
      freshSession_counts (fun x v hx _ => recordVote_counts x v hx) s h
      (p, session) (GoMap.mem_of_get? _ _ _ hs)
  · intro s p session v hs hnew hv
    have hn := nullifierUsed_eq_false _ _ hnew
    rw [submitVote_accept_eq s p v session hs hn]
    refine ⟨rfl, recordVote session v, GoMap.get?_set_self _ _ _, rfl, ?_, ?_⟩
    · simp [recordVote, VotingSession.no, hv, GoMap.getD_incr_self]
    · simp [recordVote, VotingSession.yes, hv, GoMap.getD_incr_ne _ _ _ yes_ne_no]

theorem per_choice_tally_witness :
    Reachable exampleState ∧ GoMap.get? exampleState.sessions "P1" = some exampleSession ∧
    (exampleSession.yes = (countYes exampleSession.Votes : Int) ∧
      exampleSession.no = (countNo exampleSession.Votes : Int)) ∧
    ((submitVote exampleState "P1" ⟨"n3", 2, "pf3"⟩).1 = voteRecorded ∧
      ∃ session', GoMap.get? (submitVote exampleState "P1" ⟨"n3", 2, "pf3"⟩).2.sessions "P1"
          = some session' ∧
        session'.Votes = exampleSession.Votes ++ [⟨"n3", 2, "pf3"⟩] ∧
        session'.no = exampleSession.no + 1 ∧ session'.yes = exampleSession.yes) ∧
    (submitVote exampleState "P1" ⟨"n4", -1, "pf4"⟩).1 = voteRecorded :=
  ⟨exampleState_reachable, by decide,
   per_choice_tally.1 exampleState exampleState_reachable "P1" exampleSession (by decide),
   per_choice_tally.2 exampleState "P1" exampleSession ⟨"n3", 2, "pf3"⟩ (by decide)
     (by decide) (by decide),
   (per_choice_tally.2 exampleState "P1" exampleSession ⟨"n4", -1, "pf4"⟩ (by decide)
     (by decide) (by decide)).1⟩

/-- C15. Session isolation: for every state, proposal id `p` and vote,
`submitVote`, whether it succeeds or fails, leaves the proposal ids of the
registry unchanged (the same keys, in the same places, so the same ids have a
session), leaves every session other than `p` exactly as it was (vote list
and tally included), and leaves the `ProposalID` field of session `p`
unchanged. -/
theorem submitVote_frame (s : State) (p : String) (v : VoteData) :
    (submitVote s p v).2.sessions.map Prod.fst = s.sessions.map Prod.fst ∧
    (∀ q, (GoMap.get? (submitVote s p v).2.sessions q).isSome
      = (GoMap.get? s.sessions q).isSome) ∧
    (∀ q, q ≠ p → GoMap.get? (submitVote s p v).2.sessions q = GoMap.get? s.sessions q) ∧
    (∀ session, GoMap.get? s.sessions p = some session →
      ∃ session', GoMap.get? (submitVote s p v).2.sessions p = some session' ∧
        session'.ProposalID = session.ProposalID) := by
  cases hg : GoMap.get? s.sessions p with
  | none =>
    have h : submitVote s p v = (Response.error "Session not found" StatusNotFound, s) := by
      simp [submitVote, hg]
    rw [h]
    exact ⟨rfl, fun _ => rfl, fun _ _ => rfl, fun session hs => Option.noConfusion hs⟩
  | some session =>
    cases hn : nullifierUsed session.Votes v.Nullifier with
    | true =>
      rw [submitVote_reject s p v session hg hn]
      refine ⟨rfl, fun _ => rfl, fun _ _ => rfl, ?_⟩
      intro session0 hs
      exact ⟨session, hg, by rw [Option.some.inj hs]⟩
    | false =>
      rw [submitVote_accept_eq s p v session hg hn]
      refine ⟨GoMap.keys_set_of_get? _ _ _ _ hg, ?_, ?_, ?_⟩
      · intro q
        by_cases hq : q = p
        · rw [hq, GoMap.get?_set_self, hg]
          rfl
        · rw [GoMap.get?_set_ne _ _ _ _ hq]
      · intro q hq
        exact GoMap.get?_set_ne _ _ _ _ hq
      · intro session0 hs
        exact ⟨recordVote session v, GoMap.get?_set_self _ _ _,
          by rw [← Option.some.inj hs]; rfl⟩

theorem submitVote_frame_witness :
    GoMap.get? exampleState.sessions "P1" = some exampleSession ∧
    (submitVote exampleState "P1" ⟨"n3", 1, "pf3"⟩).2.sessions.map Prod.fst = ["P1"] ∧
    ∃ session', GoMap.get? (submitVote exampleState "P1" ⟨"n3", 1, "pf3"⟩).2.sessions "P1"
        = some session' ∧ session'.ProposalID = exampleSession.ProposalID :=
  ⟨by decide, (submitVote_frame exampleState "P1" ⟨"n3", 1, "pf3"⟩).1,
   (submitVote_frame exampleState "P1" ⟨"n3", 1, "pf3"⟩).2.2.2 exampleSession (by decide)⟩


/-! ## The shape of a nullifier -/

theorem Sha256.round_length (v : List Nat) (kw : Nat) :
    (Sha256.round v kw).length = v.length := by
  unfold Sha256.round
  split <;> simp

theorem Sha256.foldl_round_length (kws : List Nat) :
    ∀ v : List Nat, (kws.foldl Sha256.round v).length = v.length := by
  induction kws with
  | nil => intro v; rfl
  | cons kw rest ih =>
    intro v
    rw [List.foldl_cons, ih, Sha256.round_length]

theorem Sha256.compress_length (hs block : List Nat) :
    (Sha256.compress hs block).length = hs.length := by
  simp [Sha256.compress, Sha256.foldl_round_length]

theorem Sha256.blocks_length (n : Nat) :
    ∀ hs bytes : List Nat, (Sha256.blocks n hs bytes).length = hs.length := by
  induction n with
  | zero => intro hs bytes; rfl
  | succ n ih =>
    intro hs bytes
    rw [Sha256.blocks, ih, Sha256.compress_length]

theorem Sha256.wordBytes_flatten_length (ws : List Nat) :
    ((ws.map Sha256.wordBytes).flatten).length = 4 * ws.length := by
  induction ws with
  | nil => rfl
  | cons w rest ih =>
    simp only [List.map_cons, List.flatten_cons, List.length_append, ih, List.length_cons]
    simp [Sha256.wordBytes]
    omega

theorem Sha256.Sum256_length (msg : List Nat) : (Sha256.Sum256 msg).length = 32 := by
  simp only [Sha256.Sum256, Sha256.wordBytes_flatten_length, Sha256.blocks_length]
  rfl

theorem hextable_getD_mem (i : Nat) : hextable.getD i '0' ∈ hextable := by
  by_cases h : i < 16
  · interval_cases i <;> decide
  · have hlen : hextable.length ≤ i := by
      have : hextable.length = 16 := by decide
      omega
    rw [List.getD_eq_default _ _ hlen]
    decide

theorem hexEncodeToString_length (bytes : List Nat) :
    (hexEncodeToString bytes).length = 2 * bytes.length := by
  unfold hexEncodeToString
  rw [String.length_mk]
  induction bytes with
  | nil => rfl
  | cons b rest ih =>
    simp only [List.map_cons, List.flatten_cons, List.length_append, ih, List.length_cons,
      List.length_nil]
    omega

theorem hexEncodeToString_chars (bytes : List Nat) (c : Char)
    (hc : c ∈ (hexEncodeToString bytes).toList) : c ∈ hextable := by
  unfold hexEncodeToString at hc
  simp only [String.toList, List.mem_flatten, List.mem_map] at hc
  obtain ⟨l, ⟨b, _, rfl⟩, hcl⟩ := hc
  simp only [List.mem_cons, List.mem_singleton, List.not_mem_nil, or_false] at hcl
  rcases hcl with h | h
  · rw [h]; exact hextable_getD_mem _
  · rw [h]; exact hextable_getD_mem _

/-- C16. Nullifier format: for every voter id (the empty string included)
`generateNullifier` answers with the hexadecimal encoding of the SHA-256
digest of the id's UTF-8 bytes; the digest has 32 bytes, so the nullifier has
exactly 64 characters, each one of 0-9 or a-f (lowercase). -/
theorem nullifier_format (s : State) (voterId : String) :
    (generateNullifier s voterId).1
      = Response.json [("nullifier",
          JsonValue.str (hexEncodeToString (Sha256.Sum256 (stringBytes voterId))))] ∧
    (Sha256.Sum256 (stringBytes voterId)).length = 32 ∧
    (hexEncodeToString (Sha256.Sum256 (stringBytes voterId))).length = 64 ∧
    ∀ c ∈ (hexEncodeToString (Sha256.Sum256 (stringBytes voterId))).toList,
      c ∈ ['0', '1', '2', '3', '4', '5', '6', '7', '8', '9', 'a', 'b', 'c', 'd', 'e', 'f'] := by
  refine ⟨rfl, Sha256.Sum256_length _, ?_, ?_⟩
  · rw [hexEncodeToString_length, Sha256.Sum256_length]
  · intro c hc
    exact hexEncodeToString_chars _ c hc


theorem nullifier_format_witness :
    (generateNullifier State.init "").1
      = Response.json [("nullifier",
          JsonValue.str "e3b0c44298fc1c149afbf4c8996fb92427ae41e4649b934ca495991b7852b855")] ∧
    (generateNullifier exampleState "abc").1
      = Response.json [("nullifier",
          JsonValue.str "ba7816bf8f01cfea414140de5dae2223b00361a396177a9cb410ff61f20015ad")] ∧
    (hexEncodeToString (Sha256.Sum256 (stringBytes ""))).length = 64 :=
  ⟨by decide, by decide, (nullifier_format State.init "").2.2.1⟩

end VotingBackend
